import Mathlib

/-!
Verification of the superblock layer of the AEFS encrypted file system
(src/corefs/superblock.c) against its natural-language specification.

The C code is shallowly embedded: pure computations (key hashing, line
parsing, record serialization) become Lean functions over lists of bytes
and characters; the external collaborators that are not part of this
repository (libc stdio, the SHA primitive, the cipher layer, the random
generator and the volume accessor) are supplied as explicit oracle values
inside environment structures, so that each call to the embedded functions
is a deterministic function of its inputs and of the recorded outcomes of
those external calls.  File mutations performed by the write path are made
observable through an explicit event trace.
-/

set_option autoImplicit false

namespace AEFS

/-! ### Result types (superblock.c uses corefs.h / cipher.h result enums) -/

/-- Core result codes.  The enum lives in a header that is not part of
src/; the set of constructors is exactly the set of codes named by
superblock.c together with the error taxonomy listed in the spec
(OK, OutOfMemory, UnknownCipher, CipherError, StorageError,
InvalidParameter, ReadOnly, BadSuperblock, BadVersion). -/
inductive CoreResult where
  | CORERC_OK
  | CORERC_NOT_ENOUGH_MEMORY
  | CORERC_UNKNOWN_CIPHER
  | CORERC_MISC_CIPHER
  | CORERC_STORAGE
  | CORERC_INVALID_PARAMETER
  | CORERC_READ_ONLY
  | CORERC_BAD_SUPERBLOCK
  | CORERC_BAD_VERSION
  deriving DecidableEq, Repr

/-- Cipher-layer result codes.  superblock.c names CIPHERRC_OK,
CIPHERRC_NOT_ENOUGH_MEMORY and CIPHERRC_UNKNOWN_CIPHER and treats every
other value uniformly (the default branch of cipherResultToCore), which
the constructor CIPHERRC_OTHER stands for. -/
inductive CipherResult where
  | CIPHERRC_OK
  | CIPHERRC_NOT_ENOUGH_MEMORY
  | CIPHERRC_UNKNOWN_CIPHER
  | CIPHERRC_OTHER
  deriving DecidableEq, Repr

/-- Embedding of cipherResultToCore (superblock.c lines 29-41). -/
def cipherResultToCore (cr : CipherResult) : CoreResult :=
  match cr with
  | .CIPHERRC_OK => .CORERC_OK
  | .CIPHERRC_NOT_ENOUGH_MEMORY => .CORERC_NOT_ENOUGH_MEMORY
  | .CIPHERRC_UNKNOWN_CIPHER => .CORERC_UNKNOWN_CIPHER
  | .CIPHERRC_OTHER => .CORERC_MISC_CIPHER

/-! ### Key derivation (coreHashKey, superblock.c lines 71-100) -/

/-- SHA_DIGESTSIZE from sha.h: the SHA-1 digest size of 20 bytes, quoted
in the comment above coreHashKey. -/
def SHA_DIGESTSIZE : Nat := 20

/-- One chunk of the coreHashKey XOR loop (lines 90-93): fold the digest
bytes into the key, advancing iPos and resetting it to 0 when it reaches
cbKey, exactly as the C loop body does. -/
def xorFold (cbKey : Nat) (st : List Nat × Nat) (digest : List Nat) :
    List Nat × Nat :=
  digest.foldl
    (fun st d =>
      let key := st.1.set st.2 (Nat.xor (st.1.getD st.2 0) d)
      let i := st.2 + 1
      (key, if i = cbKey then 0 else i))
    st

/-- The while loop of coreHashKey (lines 81-97).  The SHA primitive
(sha_init/update/final/digest over the concatenated input) is the oracle
sha.  The loop consumes at most SHA_DIGESTSIZE passphrase bytes per
round, hashes the whole current key followed by the chunk, and XORs the
digest into the key cyclically. -/
def hashKeyLoop (sha : List Nat → List Nat) (cbKey : Nat) :
    List Nat → Nat → List Nat → List Nat
  | key, _, [] => key
  | key, iPos, c :: cs =>
    let cbAdd := min SHA_DIGESTSIZE (c :: cs).length
    let digest := sha (key ++ (c :: cs).take cbAdd)
    let st := xorFold cbKey (key, iPos) digest
    hashKeyLoop sha cbKey st.1 st.2 ((c :: cs).drop cbAdd)
termination_by _ _ psz => psz.length
decreasing_by
  simp only [List.length_drop, List.length_cons, SHA_DIGESTSIZE, Nat.min_def]
  split <;> omega

/-- Embedding of coreHashKey (lines 71-100): the key buffer starts as
cbKey zero bytes, the passphrase is consumed by hashKeyLoop, and the
function unconditionally returns CORERC_OK. -/
def coreHashKey (sha : List Nat → List Nat) (pszKey : List Nat)
    (cbKey : Nat) : CoreResult × List Nat :=
  (.CORERC_OK, hashKeyLoop sha cbKey (List.replicate cbKey 0) 0 pszKey)

/-- Modelled from the spec (section 4.1): XOR one digest into the output
buffer cyclically, at positions start, start + 1, ... wrapping modulo the
key length. -/
def specChunkXor (keyLength : Nat) (key : List Nat) (pos : Nat) :
    List Nat → List Nat
  | [] => key
  | d :: ds =>
    specChunkXor keyLength
      (key.set (pos % keyLength)
        (Nat.xor (key.getD (pos % keyLength) 0) d))
      (pos + 1) ds

/-- Modelled from the spec (section 4.1): the chunk loop of deriveKey.
Each chunk is hashed together with the current full output buffer and the
digest is folded in by specChunkXor, the next chunk starting at the
position where the previous XOR ended. -/
def specLoop (sha : List Nat → List Nat) (keyLength : Nat) :
    List Nat → Nat → List (List Nat) → List Nat
  | key, _, [] => key
  | key, start, ch :: chs =>
    let digest := sha (key ++ ch)
    specLoop sha keyLength (specChunkXor keyLength key start digest)
      ((start + digest.length) % keyLength) chs

/-- Split a byte list into chunks of at most SHA_DIGESTSIZE bytes,
in order. -/
def chunks20 : List Nat → List (List Nat)
  | [] => []
  | c :: cs =>
    (c :: cs).take SHA_DIGESTSIZE :: chunks20 ((c :: cs).drop SHA_DIGESTSIZE)
termination_by l => l.length
decreasing_by
  simp only [List.length_drop, List.length_cons, SHA_DIGESTSIZE]
  omega

/-- Modelled from the spec (section 4.1): the reference deriveKey
algorithm, written from the specification text. -/
def deriveKeySpec (sha : List Nat → List Nat) (psz : List Nat)
    (keyLength : Nat) : List Nat :=
  specLoop sha keyLength (List.replicate keyLength 0) 0 (chunks20 psz)

/-! ### Data model -/

/-- Cipher descriptor: superblock.c only ever reads the pszID field of
the Cipher structure (declared in a header outside src/). -/
structure Cipher where
  pszID : List Char
  deriving DecidableEq, Repr

/-- Cipher key handle: superblock.c reads pCipher, cbKey and cbBlock of
the Key structure in coreWriteSuperBlock (lines 298-301); the key
schedule itself is opaque. -/
structure Key where
  pCipher : Cipher
  cbKey : Int
  cbBlock : Int
  deriving DecidableEq, Repr

/-- The underlying encrypted volume handle is completely opaque to
superblock.c (only passed around), so it carries no data here. -/
abbrev CryptedVolume := Unit

/-- The caller-supplied volume parameters: superblock.c reads and writes
flCryptoFlags (readSuperBlock1 lines 137-142) and reads fReadOnly
(coreWriteSuperBlock line 285). -/
structure CryptedVolumeParms where
  flCryptoFlags : Nat
  fReadOnly : Bool
  deriving DecidableEq, Repr

/-- CCRYPT_USE_CBC, the CBC-mode bit of flCryptoFlags.  The constant is
defined in a header outside src/; it is a single flag bit, fixed here as
bit 0.  Flag words are 32-bit C unsigned values. -/
def CCRYPT_USE_CBC : Nat := 1

/-- The 32-bit complement of CCRYPT_USE_CBC, as used by the C expression
clearing the bit with a bitwise AND. -/
def NOT_CCRYPT_USE_CBC : Nat := 4294967294

/-- The in-memory SuperBlock structure (declared in superblock.h, whose
fields are those superblock.c assigns and reads: pszBasePath, pKey,
pVolume, magic, version, flFlags, idRoot, szLabel, szDescription).
szLabel and szDescription model the full fixed-size byte buffers. -/
structure SuperBlock where
  pszBasePath : List Char
  pKey : Key
  pVolume : CryptedVolume
  magic : Nat
  version : Nat
  flFlags : Nat
  idRoot : Nat
  szLabel : List Nat
  szDescription : List Nat
  deriving DecidableEq, Repr

/-! ### Plaintext header parsing (readSuperBlock1, lines 127-144)

The C code reads the header with fgets and parses each line with
sscanf.  The embedding reproduces the C library semantics of the two
format strings involved, including partial assignment: conversions that
succeeded before the first matching failure are stored even though the
overall line is then skipped. -/

/-- C isspace over the default locale, as used by scanf whitespace
handling. -/
def isSpaceC (c : Char) : Bool :=
  c == ' ' || c == '\t' || c == '\n' || c == '\x0b' || c == '\x0c' || c == '\r'

/-- Parse a run of decimal digits after the sign, as the tail of a
scanf %d conversion: fails when no digit is present. -/
def parseDigits (sgn : Int) (l : List Char) : Option (Int × List Char) :=
  let ds := l.takeWhile (fun c => c.isDigit)
  if ds.isEmpty then none
  else
    some (sgn * Int.ofNat (ds.foldl (fun a c => a * 10 + (c.toNat - 48)) 0),
      l.drop ds.length)

/-- A scanf %d conversion: optional whitespace, optional sign, at least
one digit; yields the value and the unconsumed input. -/
def parseIntC (l : List Char) : Option (Int × List Char) :=
  match l.dropWhile (fun c => isSpaceC c) with
  | [] => parseDigits 1 []
  | c :: r =>
    if c = '-' then parseDigits (-1) r
    else if c = '+' then parseDigits 1 r
    else parseDigits 1 (c :: r)

/-- The line scan at superblock.c line 129, with the format matching a
nonempty run of characters other than the colon, a literal colon,
optional whitespace and a nonempty run of non-whitespace characters.
Returns the name/value pair when both conversions succeed (sscanf result
2); any other outcome makes the loop body skip the line. -/
def parseLine (l : List Char) : Option (List Char × List Char) :=
  let name := l.takeWhile (fun c => c != ':')
  if name.isEmpty then none
  else
    match l.drop name.length with
    | [] => none
    | c :: rest =>
      if c = ':' then
        let v := (rest.dropWhile (fun c => isSpaceC c)).takeWhile
          (fun c => !isSpaceC c)
        if v.isEmpty then none else some (name, v)
      else none

/-- The parsed cipher configuration accumulated by the line loop of
readSuperBlock1: the local variables szCipher, cbKey, cbBlock (lines
113-115) together with the caller's parms, which the loop mutates in
place. -/
structure HdrState where
  szCipher : List Char
  cbKey : Int
  cbBlock : Int
  parms : CryptedVolumeParms
  deriving DecidableEq, Repr

/-- The initial header-loop state: empty cipher id, zero sizes, the
caller's parms. -/
def initHdrState (parms : CryptedVolumeParms) : HdrState :=
  { szCipher := [], cbKey := 0, cbBlock := 0, parms := parms }

/-- The cipher-value scan at superblock.c lines 132-136, with C sscanf
semantics for the format made of a width-63 run of characters other
than the dash, a literal dash, %d, a literal dash and %d: each
conversion that succeeds before the first failure is stored, and only
when all three succeed (sscanf result 3) are the bit counts divided by
8 (C division). -/
def cipherScan (st : HdrState) (v : List Char) : HdrState :=
  let c1 := (v.takeWhile (fun c => c != '-')).take 63
  if c1.isEmpty then st
  else
    match v.drop c1.length with
    | [] => { st with szCipher := c1 }
    | c :: r2 =>
      if c = '-' then
        match parseIntC r2 with
        | none => { st with szCipher := c1 }
        | some (k, r3) =>
          match r3 with
          | [] => { st with szCipher := c1, cbKey := k }
          | c2 :: r4 =>
            if c2 = '-' then
              match parseIntC r4 with
              | none => { st with szCipher := c1, cbKey := k }
              | some (b, _) =>
                { st with szCipher := c1, cbKey := Int.tdiv k 8,
                          cbBlock := Int.tdiv b 8 }
            else { st with szCipher := c1, cbKey := k }
      else { st with szCipher := c1 }

/-- The number of successful conversions of the cipher-value scan (the
sscanf result at line 132): 3 is a full match, anything smaller makes
the loop body skip the line after the partial assignments. -/
def cipherScanCount (v : List Char) : Nat :=
  let c1 := (v.takeWhile (fun c => c != '-')).take 63
  if c1.isEmpty then 0
  else
    match v.drop c1.length with
    | [] => 1
    | c :: r2 =>
      if c = '-' then
        match parseIntC r2 with
        | none => 1
        | some (_, r3) =>
          match r3 with
          | [] => 2
          | c2 :: r4 =>
            if c2 = '-' then
              match parseIntC r4 with
              | none => 2
              | some _ => 3
            else 2
      else 1

/-- The keyword of the cipher header line. -/
def cipherKW : List Char := ['c', 'i', 'p', 'h', 'e', 'r']

/-- The keyword of the use-cbc header line. -/
def cbcKW : List Char := ['u', 's', 'e', '-', 'c', 'b', 'c']

/-- One iteration of the fgets loop of readSuperBlock1 (lines 127-144):
skip the line unless it parses as name colon value; a cipher line runs
the cipher-value scan; a use-cbc line sets the CBC bit when the value is
the string 1 and clears it otherwise; any other name is ignored. -/
def processLine (st : HdrState) (l : List Char) : HdrState :=
  match parseLine l with
  | none => st
  | some (n, v) =>
    if n = cipherKW then cipherScan st v
    else if n = cbcKW then
      if v = ['1'] then
        { st with parms := { st.parms with
            flCryptoFlags := st.parms.flCryptoFlags ||| CCRYPT_USE_CBC } }
      else
        { st with parms := { st.parms with
            flCryptoFlags := st.parms.flCryptoFlags &&& NOT_CCRYPT_USE_CBC } }
    else st

/-- The whole fgets loop over the lines the C library returned. -/
def processLines (st : HdrState) (ls : List (List Char)) : HdrState :=
  ls.foldl processLine st

/-- The cipher registry scan of coreReadSuperBlock's helper (lines
148-153): walk the sentinel-terminated array, return the first cipher
whose pszID is byte-for-byte equal to the requested id. -/
def findCipher : List Cipher → List Char → Option Cipher
  | [], _ => none
  | c :: cs, id => if c.pszID = id then some c else findCipher cs id

/-! ### On-disk record layout (readSuperBlock2 / coreWriteSuperBlock)

The sizes below come from headers that are not part of src/, so they are
modelled: the spec fixes a single sector of fixed size whose decrypted
payload carries magic, version, flags and rootId as 4-byte little-endian
integers followed by two fixed-width string fields and padding; the
CryptedSectorData carries a small random field in front of the payload
(superblock.c line 329 fills exactly that field from the system random
generator).  The concrete values are immaterial to every property proved
here, subject to the source assertion at line 236 that the on-disk record
fits inside the payload. -/

/-- Modelled from the spec: the fixed sector size (corefs.h). -/
def SECTOR_SIZE : Nat := 512

/-- Modelled from the spec: the size of the random field of
CryptedSectorData (corefs.h). -/
def RANDOM_SIZE : Nat := 4

/-- The payload size of a sector: the sector minus its random field. -/
def PAYLOAD_SIZE : Nat := SECTOR_SIZE - RANDOM_SIZE

/-- Modelled from the spec: the byte size of the szLabel buffers of
SuperBlock and SuperBlock2OnDisk (superblock.h). -/
def SZLABEL_SIZE : Nat := 128

/-- Modelled from the spec: the byte size of the szDescription buffers
of SuperBlock and SuperBlock2OnDisk (superblock.h). -/
def SZDESCR_SIZE : Nat := 256

/-- Modelled from the spec: bytesToInt32 (utility outside src/) decodes
a 4-byte little-endian integer. -/
def bytesToInt32 (b : List Nat) : Nat :=
  b.getD 0 0 + 256 * b.getD 1 0 + 65536 * b.getD 2 0 + 16777216 * b.getD 3 0

/-- Modelled from the spec: int32ToBytes (utility outside src/) encodes
an integer as 4 little-endian bytes. -/
def int32ToBytes (n : Nat) : List Nat :=
  [n % 256, n / 256 % 256, n / 65536 % 256, n / 16777216 % 256]

/-- Copy exactly n bytes from src into a fresh buffer (the memcpy of the
on-disk string field into the in-memory buffer); positions past the end
of src stand for the adjacent sector bytes and are modelled as zero. -/
def padTo (n : Nat) (l : List Nat) : List Nat :=
  l.take n ++ List.replicate (n - l.length) 0

/-- The memcpy plus forced null termination applied to each string field
by readSuperBlock2 (lines 204-209): copy the field's n bytes, then
overwrite the last byte of the buffer with 0. -/
def fixBuf (n : Nat) (src : List Nat) : List Nat :=
  (padTo n src).set (n - 1) 0

/-! ### The open path (readSuperBlock1/2, coreReadSuperBlock) -/

/-- The recorded outcomes of the external calls performed during one
coreReadSuperBlock call: secure-memory allocation, the snprintf
overflow checks, the stdio calls on the two files, the SHA primitive,
cryptCreateKey, coreDecryptSectorData and coreAccessVolume.  uninit is
the indeterminate content of the freshly allocated SuperBlock. -/
structure REnv where
  allocOk : Bool
  path1Fits : Bool
  header1 : Option (List (List Char))
  close1Ok : Bool
  sha : List Nat → List Nat
  createKey : Cipher → Int → Int → List Nat → CipherResult × Key
  path2Fits : Bool
  record2 : Option (List Nat)
  close2Ok : Bool
  decrypt : List Nat → Nat → CoreResult × List Nat
  accessVolume : CoreResult × CryptedVolume
  uninit : SuperBlock

/-- Embedding of readSuperBlock1 (superblock.c lines 105-168).  header1
is none when fopen fails, otherwise the list of lines fgets produced;
the loop parses them, then the registry is scanned, the passphrase is
hashed into a key of cbKey bytes and cryptCreateKey builds the key
handle.  The returned parms are the caller's parms as mutated by the
loop. -/
def readSuperBlock1 (env : REnv) (sb : SuperBlock) (pszKey : List Nat)
    (parms : CryptedVolumeParms) (ciphers : List Cipher) :
    CoreResult × SuperBlock × CryptedVolumeParms :=
  if !env.path1Fits then (.CORERC_INVALID_PARAMETER, sb, parms)
  else
    match env.header1 with
    | none => (.CORERC_STORAGE, sb, parms)
    | some lines =>
      let st := processLines (initHdrState parms) lines
      if !env.close1Ok then (.CORERC_STORAGE, sb, st.parms)
      else
        match findCipher ciphers st.szCipher with
        | none => (.CORERC_UNKNOWN_CIPHER, sb, st.parms)
        | some cipher =>
          let hk := coreHashKey env.sha pszKey st.cbKey.toNat
          if hk.1 ≠ .CORERC_OK then (hk.1, sb, st.parms)
          else
            let ck := env.createKey cipher st.cbBlock st.cbKey hk.2
            if ck.1 ≠ .CIPHERRC_OK then
              (cipherResultToCore ck.1, sb, st.parms)
            else
              (.CORERC_OK, { sb with pKey := ck.2 }, st.parms)

/-- Embedding of readSuperBlock2 (superblock.c lines 172-214).  record2
is none when fopen fails or fread returns less than one full sector;
otherwise it is the sector read.  The decrypted payload populates the
SuperBlock fields unconditionally, both string buffers get their last
byte forced to zero, and only then is the decryption result returned. -/
def readSuperBlock2 (env : REnv) (sb : SuperBlock)
    (parms : CryptedVolumeParms) : CoreResult × SuperBlock :=
  if !env.path2Fits then (.CORERC_INVALID_PARAMETER, sb)
  else
    match env.record2 with
    | none => (.CORERC_STORAGE, sb)
    | some abSector =>
      if !env.close2Ok then (.CORERC_STORAGE, sb)
      else
        let d := env.decrypt abSector parms.flCryptoFlags
        (d.1,
          { sb with
            magic := bytesToInt32 (d.2.take 4)
            version := bytesToInt32 ((d.2.drop 4).take 4)
            flFlags := bytesToInt32 ((d.2.drop 8).take 4)
            idRoot := bytesToInt32 ((d.2.drop 12).take 4)
            szLabel := fixBuf SZLABEL_SIZE (d.2.drop 16)
            szDescription :=
              fixBuf SZDESCR_SIZE (d.2.drop (16 + SZLABEL_SIZE)) })

/-- The outcome of one coreReadSuperBlock call: the returned CoreResult,
the SuperBlock stored through ppSuperBlock (none models the null
pointer), the caller's parms after the call, and whether the allocated
SuperBlock was released again by sysFreeSecureMem on an error path. -/
structure ReadResult where
  cr : CoreResult
  sb : Option SuperBlock
  parms : CryptedVolumeParms
  freed : Bool
  deriving DecidableEq, Repr

/-- Embedding of coreReadSuperBlock (superblock.c lines 228-271),
with sbMagic and sbCurVer standing for the header constants
SUPERBLOCK2_MAGIC and SBV_CURRENT.  The helper failures before the
volume exists free the allocation and store null; a failure of
readSuperBlock2 is remembered, the volume is constructed, the SuperBlock
is stored, and only then is the remembered error or the magic/version
validation result returned. -/
def coreReadSuperBlock (env : REnv) (sbMagic sbCurVer : Nat)
    (basePath : List Char) (pszKey : List Nat) (ciphers : List Cipher)
    (parms : CryptedVolumeParms) : ReadResult :=
  if !env.allocOk then ⟨.CORERC_NOT_ENOUGH_MEMORY, none, parms, false⟩
  else
    let sb0 := { env.uninit with pszBasePath := basePath }
    let r1 := readSuperBlock1 env sb0 pszKey parms ciphers
    if r1.1 ≠ .CORERC_OK then ⟨r1.1, none, r1.2.2, true⟩
    else
      let r2 := readSuperBlock2 env r1.2.1 r1.2.2
      if env.accessVolume.1 ≠ .CORERC_OK then
        ⟨env.accessVolume.1, none, r1.2.2, true⟩
      else
        let sb := { r2.2 with pVolume := env.accessVolume.2 }
        if r2.1 ≠ .CORERC_OK then ⟨r2.1, some sb, r1.2.2, false⟩
        else if sb.magic ≠ sbMagic then
          ⟨.CORERC_BAD_SUPERBLOCK, some sb, r1.2.2, false⟩
        else if sb.version > sbCurVer then
          ⟨.CORERC_BAD_VERSION, some sb, r1.2.2, false⟩
        else ⟨.CORERC_OK, some sb, r1.2.2, false⟩

/-! ### The write path (coreWriteSuperBlock, lines 274-354) -/

/-- CWS_NOWRITE_SUPERBLOCK1, the option bit suppressing the header
rewrite.  The constant is defined in superblock.h outside src/; it is a
single flag bit, fixed here as bit 0. -/
def CWS_NOWRITE_SUPERBLOCK1 : Nat := 1

/-- File mutations performed by the write path, in order: truncating
open of the header, the two header lines, truncating open of the record
file, and the record write carrying the encrypted sector together with
the plaintext random field and payload that produced it. -/
inductive FsOp where
  | hdrTruncate
  | hdrLine1 (id : List Char) (keyBits blockBits : Int)
  | hdrLine2 (cbc : Nat)
  | recTruncate
  | recWrite (enc rand payload : List Nat)
  deriving DecidableEq, Repr

/-- The recorded outcomes of the external calls performed during one
coreWriteSuperBlock call.  parms is what coreQueryVolumeParms returns
for the bound volume; random is the output of sysGetRandomBits for the
sector's random field; encrypt is coreEncryptSectorData as a function of
the plaintext random field, the plaintext payload and the crypto
flags. -/
structure WEnv where
  parms : CryptedVolumeParms
  path1Fits : Bool
  open1Ok : Bool
  print1Ok : Bool
  print2Ok : Bool
  close1Ok : Bool
  path2Fits : Bool
  open2Ok : Bool
  random : List Nat
  encrypt : List Nat → List Nat → Nat → List Nat
  writeOk : Bool
  close2Ok : Bool

/-- Overwrite the bytes of buf starting at offset ofs with src, leaving
the rest unchanged (the effect of an in-place store into a byte
buffer). -/
def writeAt (buf : List Nat) (ofs : Nat) (src : List Nat) : List Nat :=
  buf.take ofs ++ src ++ buf.drop (ofs + src.length)

/-- The byte sequence strcpy copies out of a null-terminated buffer: the
bytes before the first zero, followed by the terminating zero. -/
def cstr (l : List Nat) : List Nat :=
  l.takeWhile (fun b => b ≠ 0) ++ [0]

/-- The serialization of the encrypted record's plaintext payload
(superblock.c lines 327-336): the payload is zero-filled, the canonical
magic and current version are stamped at offsets 0 and 4, the flags and
root id follow, and the two strings are copied by strcpy (bytes up to
and including the terminator) at their fixed offsets. -/
def buildPayload (sbMagic sbCurVer : Nat) (sb : SuperBlock) : List Nat :=
  let p0 := List.replicate PAYLOAD_SIZE 0
  let p1 := writeAt p0 0 (int32ToBytes sbMagic)
  let p2 := writeAt p1 4 (int32ToBytes sbCurVer)
  let p3 := writeAt p2 8 (int32ToBytes sb.flFlags)
  let p4 := writeAt p3 12 (int32ToBytes sb.idRoot)
  let p5 := writeAt p4 16 (cstr sb.szLabel)
  writeAt p5 (16 + SZLABEL_SIZE) (cstr sb.szDescription)

/-- Embedding of the header-writing half of coreWriteSuperBlock (lines
287-316): truncating open, the cipher line (the id and the key and
block sizes scaled back to bits), the use-cbc line (the masked CBC
bit printed as a decimal), close; each stdio failure maps to
CORERC_STORAGE and stops, keeping the trace of what was mutated. -/
def writeSuperBlock1Part (env : WEnv) (sb : SuperBlock) :
    CoreResult × List FsOp :=
  if !env.path1Fits then (.CORERC_INVALID_PARAMETER, [])
  else if !env.open1Ok then (.CORERC_STORAGE, [])
  else
    let e1 := FsOp.hdrLine1 sb.pKey.pCipher.pszID (sb.pKey.cbKey * 8)
      (sb.pKey.cbBlock * 8)
    if !env.print1Ok then (.CORERC_STORAGE, [.hdrTruncate])
    else
      let e2 := FsOp.hdrLine2 (env.parms.flCryptoFlags &&& CCRYPT_USE_CBC)
      if !env.print2Ok then (.CORERC_STORAGE, [.hdrTruncate, e1])
      else if !env.close1Ok then (.CORERC_STORAGE, [.hdrTruncate, e1, e2])
      else (.CORERC_OK, [.hdrTruncate, e1, e2])

/-- Embedding of coreWriteSuperBlock (superblock.c lines 274-354):
read-only volumes are rejected before any file operation; the header is
rewritten unless suppressed by the option bit; the record payload is
serialized, encrypted together with the fresh random field, and written;
only after every step succeeded are the in-memory magic and version
stamped to the canonical constants. -/
def coreWriteSuperBlock (env : WEnv) (sbMagic sbCurVer : Nat)
    (sb : SuperBlock) (flags : Nat) :
    CoreResult × SuperBlock × List FsOp :=
  if env.parms.fReadOnly then (.CORERC_READ_ONLY, sb, [])
  else
    let p1 :=
      if flags &&& CWS_NOWRITE_SUPERBLOCK1 = 0 then
        writeSuperBlock1Part env sb
      else (.CORERC_OK, [])
    if p1.1 ≠ .CORERC_OK then (p1.1, sb, p1.2)
    else if !env.path2Fits then (.CORERC_INVALID_PARAMETER, sb, p1.2)
    else if !env.open2Ok then (.CORERC_STORAGE, sb, p1.2)
    else
      let payload := buildPayload sbMagic sbCurVer sb
      let enc := env.encrypt env.random payload env.parms.flCryptoFlags
      if !env.writeOk then (.CORERC_STORAGE, sb, p1.2 ++ [.recTruncate])
      else if !env.close2Ok then
        (.CORERC_STORAGE, sb,
          p1.2 ++ [.recTruncate, .recWrite enc env.random payload])
      else
        (.CORERC_OK, { sb with version := sbCurVer, magic := sbMagic },
          p1.2 ++ [.recTruncate, .recWrite enc env.random payload])

/-! ### Lemmas: the coreHashKey loop against the spec algorithm -/

theorem take_min {α : Type} (n : Nat) (l : List α) :
    l.take (min n l.length) = l.take n := by
  rcases Nat.le_total n l.length with h | h
  · rw [Nat.min_eq_left h]
  · rw [Nat.min_eq_right h, List.take_length, List.take_of_length_le h]

theorem drop_min {α : Type} (n : Nat) (l : List α) :
    l.drop (min n l.length) = l.drop n := by
  rcases Nat.le_total n l.length with h | h
  · rw [Nat.min_eq_left h]
  · rw [Nat.min_eq_right h, List.drop_length, List.drop_eq_nil_of_le h]

theorem specChunkXor_mod (L : Nat) (ds : List Nat) :
    ∀ (key : List Nat) (p : Nat),
      specChunkXor L key (p % L) ds = specChunkXor L key p ds := by
  induction ds with
  | nil => intro key p; rfl
  | cons d ds ih =>
    intro key p
    have h1 : p % L % L = p % L := Nat.mod_mod_of_dvd p (dvd_refl L)
    simp only [specChunkXor, h1]
    calc specChunkXor L (key.set (p % L) (Nat.xor (key.getD (p % L) 0) d))
          (p % L + 1) ds
        = specChunkXor L (key.set (p % L) (Nat.xor (key.getD (p % L) 0) d))
          ((p % L + 1) % L) ds := (ih _ _).symm
      _ = specChunkXor L (key.set (p % L) (Nat.xor (key.getD (p % L) 0) d))
          ((p + 1) % L) ds := by rw [Nat.mod_add_mod]
      _ = specChunkXor L (key.set (p % L) (Nat.xor (key.getD (p % L) 0) d))
          (p + 1) ds := ih _ _

theorem xorFold_eq (L : Nat) (hL : 0 < L) (digest : List Nat) :
    ∀ (key : List Nat) (start : Nat), start < L →
      xorFold L (key, start) digest =
        (specChunkXor L key start digest, (start + digest.length) % L) := by
  induction digest with
  | nil =>
    intro key start h
    simp [xorFold, specChunkXor, Nat.mod_eq_of_lt h]
  | cons d ds ih =>
    intro key start h
    have hstep : xorFold L (key, start) (d :: ds) =
        xorFold L
          (key.set start (Nat.xor (key.getD start 0) d),
            if start + 1 = L then 0 else start + 1) ds := rfl
    have hs2 : (if start + 1 = L then 0 else start + 1) = (start + 1) % L := by
      by_cases hc : start + 1 = L
      · simp [hc]
      · have : start + 1 < L := by omega
        simp [hc, Nat.mod_eq_of_lt this]
    have hlt : (start + 1) % L < L := Nat.mod_lt _ hL
    rw [hstep, hs2, ih _ _ hlt]
    have hsp : specChunkXor L key start (d :: ds) =
        specChunkXor L (key.set start (Nat.xor (key.getD start 0) d))
          (start + 1) ds := by
      simp only [specChunkXor, Nat.mod_eq_of_lt h]
    rw [hsp]
    simp only [Prod.mk.injEq]
    refine ⟨specChunkXor_mod L ds _ _, ?_⟩
    simp only [List.length_cons]
    rw [Nat.mod_add_mod]
    congr 1
    omega

theorem hashKeyLoop_eq_spec (sha : List Nat → List Nat) (L : Nat)
    (hH : ∀ l, (sha l).length = SHA_DIGESTSIZE) (hL : 0 < L)
    (psz : List Nat) :
    ∀ (key : List Nat) (iPos : Nat), iPos < L →
      hashKeyLoop sha L key iPos psz =
        specLoop sha L key iPos (chunks20 psz) := by
  cases psz with
  | nil =>
    intro key iPos _
    simp [hashKeyLoop, chunks20, specLoop]
  | cons c cs =>
    intro key iPos h
    simp only [hashKeyLoop, chunks20, specLoop]
    rw [take_min, drop_min]
    rw [xorFold_eq L hL _ _ _ h]
    rw [hH (key ++ (c :: cs).take SHA_DIGESTSIZE)]
    exact hashKeyLoop_eq_spec sha L hH hL ((c :: cs).drop SHA_DIGESTSIZE) _ _
      (Nat.mod_lt _ hL)
termination_by psz.length
decreasing_by
  simp only [List.length_drop, List.length_cons, SHA_DIGESTSIZE]
  omega

/-- Claim C4: for every passphrase and every positive key length,
coreHashKey computes exactly the reference algorithm of the spec — the
key starts all zero, the passphrase is consumed in chunks of at most the
digest size, each chunk is hashed together with the current full key and
the whole digest is XORed in cyclically from where the previous chunk
ended, wrapping modulo the key length; an empty passphrase leaves the
key all zero and the function always returns CORERC_OK. -/
theorem coreHashKey_matches_reference (sha : List Nat → List Nat)
    (hH : ∀ l, (sha l).length = SHA_DIGESTSIZE) (psz : List Nat)
    (cbKey : Nat) (hk : 0 < cbKey) :
    (coreHashKey sha psz cbKey).1 = CoreResult.CORERC_OK ∧
    (coreHashKey sha psz cbKey).2 = deriveKeySpec sha psz cbKey ∧
    (psz = [] → (coreHashKey sha psz cbKey).2 = List.replicate cbKey 0) := by
  refine ⟨rfl, ?_, ?_⟩
  · simp only [coreHashKey, deriveKeySpec]
    exact hashKeyLoop_eq_spec sha cbKey hH hk psz _ 0 hk
  · intro h
    subst h
    simp only [coreHashKey]
    rw [hashKeyLoop]

/-- A concrete stand-in for the SHA primitive, used by the witnesses:
a length-20 digest depending on every input byte. -/
def sha0 : List Nat → List Nat :=
  fun l => List.replicate SHA_DIGESTSIZE ((l.foldl (fun a b => a + 2 * b) 7) % 256)

theorem coreHashKey_matches_reference_witness :
    0 < 7 ∧
    ((coreHashKey sha0 (List.range 45) 7).1 = CoreResult.CORERC_OK ∧
     (coreHashKey sha0 (List.range 45) 7).2 =
       deriveKeySpec sha0 (List.range 45) 7 ∧
     (List.range 45 = [] →
       (coreHashKey sha0 (List.range 45) 7).2 = List.replicate 7 0)) :=
  ⟨by decide,
    coreHashKey_matches_reference sha0 (fun l => by simp [sha0])
      (List.range 45) 7 (by decide)⟩

/-! ### Shorthands for the stages of one coreReadSuperBlock call -/

/-- The result of the readSuperBlock1 stage of a coreReadSuperBlock
call: the helper applied to the freshly allocated SuperBlock bound to
the base path. -/
def rsb1Out (env : REnv) (basePath : List Char) (pszKey : List Nat)
    (parms : CryptedVolumeParms) (ciphers : List Cipher) :
    CoreResult × SuperBlock × CryptedVolumeParms :=
  readSuperBlock1 env { env.uninit with pszBasePath := basePath } pszKey
    parms ciphers

/-- The result of the readSuperBlock2 stage of a coreReadSuperBlock
call, applied after a successful readSuperBlock1 stage. -/
def rsb2Out (env : REnv) (basePath : List Char) (pszKey : List Nat)
    (parms : CryptedVolumeParms) (ciphers : List Cipher) :
    CoreResult × SuperBlock :=
  readSuperBlock2 env (rsb1Out env basePath pszKey parms ciphers).2.1
    (rsb1Out env basePath pszKey parms ciphers).2.2

/-- The SuperBlock as stored through ppSuperBlock once the volume has
been constructed. -/
def openedSB (env : REnv) (basePath : List Char) (pszKey : List Nat)
    (parms : CryptedVolumeParms) (ciphers : List Cipher) : SuperBlock :=
  { (rsb2Out env basePath pszKey parms ciphers).2 with
    pVolume := env.accessVolume.2 }

/-- Claim C1: when the plaintext header stage succeeds, the volume opens
successfully, but the encrypted-record read fails, coreReadSuperBlock
stores a non-null SuperBlock through ppSuperBlock and returns the error
of the encrypted-record read. -/
theorem read_keeps_instance_on_record_error (env : REnv)
    (sbMagic sbCurVer : Nat) (basePath : List Char) (pszKey : List Nat)
    (ciphers : List Cipher) (parms : CryptedVolumeParms)
    (hAlloc : env.allocOk = true)
    (h1 : (rsb1Out env basePath pszKey parms ciphers).1 = .CORERC_OK)
    (h2 : (rsb2Out env basePath pszKey parms ciphers).1 ≠ .CORERC_OK)
    (hv : env.accessVolume.1 = .CORERC_OK) :
    (coreReadSuperBlock env sbMagic sbCurVer basePath pszKey ciphers
        parms).sb =
      some (openedSB env basePath pszKey parms ciphers) ∧
    (coreReadSuperBlock env sbMagic sbCurVer basePath pszKey ciphers
        parms).cr =
      (rsb2Out env basePath pszKey parms ciphers).1 := by
  unfold coreReadSuperBlock
  simp only [rsb1Out, rsb2Out, openedSB] at h1 h2 ⊢
  simp [hAlloc, h1, h2, hv]

/-! ### Concrete fixtures for the witnesses -/

/-- A registry with a single cipher named aes. -/
def regs1 : List Cipher := [⟨['a', 'e', 's']⟩]

/-- Caller parms: no flags, not read-only. -/
def parms0 : CryptedVolumeParms := ⟨0, false⟩

/-- Indeterminate content of a freshly allocated SuperBlock. -/
def sb00 : SuperBlock := ⟨[], ⟨⟨[]⟩, 0, 0⟩, (), 0, 0, 0, 0, [], []⟩

/-- A well-formed cipher header line. -/
def hdrCipherLine : List Char := "cipher: aes-128-128\n".toList

/-- A key-construction oracle that always succeeds. -/
def mkKeyOk : Cipher → Int → Int → List Nat → CipherResult × Key :=
  fun c b k _ => (.CIPHERRC_OK, ⟨c, k, b⟩)

/-- Environment of a degraded open: everything succeeds except that the
encrypted record file is missing (fread never returns a sector). -/
def env1 : REnv :=
  { allocOk := true
    path1Fits := true
    header1 := some [hdrCipherLine]
    close1Ok := true
    sha := sha0
    createKey := mkKeyOk
    path2Fits := true
    record2 := none
    close2Ok := true
    decrypt := fun _ _ => (.CORERC_OK, [])
    accessVolume := (.CORERC_OK, ())
    uninit := sb00 }

theorem read_keeps_instance_on_record_error_witness :
    env1.allocOk = true ∧
    (rsb1Out env1 ['v'] [] parms0 regs1).1 = .CORERC_OK ∧
    (rsb2Out env1 ['v'] [] parms0 regs1).1 ≠ .CORERC_OK ∧
    env1.accessVolume.1 = .CORERC_OK ∧
    ((coreReadSuperBlock env1 7 2 ['v'] [] regs1 parms0).sb =
        some (openedSB env1 ['v'] [] parms0 regs1) ∧
      (coreReadSuperBlock env1 7 2 ['v'] [] regs1 parms0).cr =
        (rsb2Out env1 ['v'] [] parms0 regs1).1) :=
  ⟨rfl, by decide, by decide, rfl,
    read_keeps_instance_on_record_error env1 7 2 ['v'] [] regs1 parms0
      rfl (by decide) (by decide) rfl⟩

/-- Claim C3: when the encrypted record is read and decrypted without
error and the volume opens, a decrypted version above the supported
constant yields CORERC_BAD_VERSION while a wrong magic yields the
distinct CORERC_BAD_SUPERBLOCK (the magic test coming first, so the
version case assumes the magic is canonical), and in both cases the
non-null SuperBlock has already been stored through ppSuperBlock. -/
theorem read_bad_version_distinct_from_bad_magic (env : REnv)
    (sbMagic sbCurVer : Nat) (basePath : List Char) (pszKey : List Nat)
    (ciphers : List Cipher) (parms : CryptedVolumeParms)
    (hAlloc : env.allocOk = true)
    (h1 : (rsb1Out env basePath pszKey parms ciphers).1 = .CORERC_OK)
    (h2 : (rsb2Out env basePath pszKey parms ciphers).1 = .CORERC_OK)
    (hv : env.accessVolume.1 = .CORERC_OK) :
    ((openedSB env basePath pszKey parms ciphers).magic = sbMagic →
      (openedSB env basePath pszKey parms ciphers).version > sbCurVer →
      (coreReadSuperBlock env sbMagic sbCurVer basePath pszKey ciphers
          parms).cr = .CORERC_BAD_VERSION ∧
      (coreReadSuperBlock env sbMagic sbCurVer basePath pszKey ciphers
          parms).sb = some (openedSB env basePath pszKey parms ciphers)) ∧
    ((openedSB env basePath pszKey parms ciphers).magic ≠ sbMagic →
      (coreReadSuperBlock env sbMagic sbCurVer basePath pszKey ciphers
          parms).cr = .CORERC_BAD_SUPERBLOCK ∧
      (coreReadSuperBlock env sbMagic sbCurVer basePath pszKey ciphers
          parms).sb = some (openedSB env basePath pszKey parms ciphers)) := by
  unfold coreReadSuperBlock
  simp only [rsb1Out, rsb2Out, openedSB] at h1 h2 ⊢
  constructor
  · intro hm hver
    simp [hAlloc, h1, h2, hv, hm, hver]
  · intro hm
    simp [hAlloc, h1, h2, hv, hm]

/-- Environment of an open whose record decrypts cleanly to a payload
with magic 7 and version 9. -/
def env2 : REnv :=
  { env1 with
    record2 := some (List.replicate SECTOR_SIZE 0)
    decrypt := fun _ _ =>
      (.CORERC_OK, int32ToBytes 7 ++ int32ToBytes 9 ++
        List.replicate (PAYLOAD_SIZE - 8) 0) }

theorem read_bad_version_distinct_from_bad_magic_witness :
    env2.allocOk = true ∧
    (rsb1Out env2 ['v'] [] parms0 regs1).1 = .CORERC_OK ∧
    (rsb2Out env2 ['v'] [] parms0 regs1).1 = .CORERC_OK ∧
    env2.accessVolume.1 = .CORERC_OK ∧
    (openedSB env2 ['v'] [] parms0 regs1).magic = 7 ∧
    (openedSB env2 ['v'] [] parms0 regs1).version > 2 ∧
    ((coreReadSuperBlock env2 7 2 ['v'] [] regs1 parms0).cr =
        .CORERC_BAD_VERSION ∧
      (coreReadSuperBlock env2 7 2 ['v'] [] regs1 parms0).sb =
        some (openedSB env2 ['v'] [] parms0 regs1)) :=
  ⟨rfl, by decide, by decide, rfl, by decide, by decide,
    (read_bad_version_distinct_from_bad_magic env2 7 2 ['v'] [] regs1
        parms0 rfl (by decide) (by decide) rfl).1 (by decide) (by decide)⟩

/-- Claim C6: when the plaintext header names a cipher id that the
registry scan (first exact byte match wins) does not resolve,
coreReadSuperBlock returns CORERC_UNKNOWN_CIPHER, stores null through
ppSuperBlock and frees the partially allocated SuperBlock. -/
theorem read_unknown_cipher_no_instance (env : REnv)
    (sbMagic sbCurVer : Nat) (basePath : List Char) (pszKey : List Nat)
    (ciphers : List Cipher) (parms : CryptedVolumeParms)
    (lines : List (List Char))
    (hAlloc : env.allocOk = true)
    (hPath : env.path1Fits = true)
    (hHdr : env.header1 = some lines)
    (hClose : env.close1Ok = true)
    (hFind : findCipher ciphers
      (processLines (initHdrState parms) lines).szCipher = none) :
    (coreReadSuperBlock env sbMagic sbCurVer basePath pszKey ciphers
        parms).cr = .CORERC_UNKNOWN_CIPHER ∧
    (coreReadSuperBlock env sbMagic sbCurVer basePath pszKey ciphers
        parms).sb = none ∧
    (coreReadSuperBlock env sbMagic sbCurVer basePath pszKey ciphers
        parms).freed = true := by
  unfold coreReadSuperBlock readSuperBlock1
  simp [hAlloc, hPath, hHdr, hClose, hFind]

/-- Environment whose header names a cipher absent from the registry. -/
def env3 : REnv :=
  { env1 with header1 := some ["cipher: des-64-64\n".toList] }

theorem read_unknown_cipher_no_instance_witness :
    env3.allocOk = true ∧ env3.path1Fits = true ∧
    env3.header1 = some ["cipher: des-64-64\n".toList] ∧
    env3.close1Ok = true ∧
    findCipher regs1
      (processLines (initHdrState parms0)
        ["cipher: des-64-64\n".toList]).szCipher = none ∧
    ((coreReadSuperBlock env3 7 2 ['v'] [] regs1 parms0).cr =
        .CORERC_UNKNOWN_CIPHER ∧
      (coreReadSuperBlock env3 7 2 ['v'] [] regs1 parms0).sb = none ∧
      (coreReadSuperBlock env3 7 2 ['v'] [] regs1 parms0).freed = true) :=
  ⟨rfl, rfl, rfl, rfl, by decide,
    read_unknown_cipher_no_instance env3 7 2 ['v'] [] regs1 parms0
      ["cipher: des-64-64\n".toList] rfl rfl rfl rfl (by decide)⟩

theorem ite_fst {α β : Type} {c : Prop} [Decidable c] (x y : α × β) :
    (if c then x else y).1 = if c then x.1 else y.1 := by
  split <;> rfl

theorem ite_snd {α β : Type} {c : Prop} [Decidable c] (x y : α × β) :
    (if c then x else y).2 = if c then x.2 else y.2 := by
  split <;> rfl

theorem ite_rr_parms {c : Prop} [Decidable c] (x y : ReadResult) :
    (if c then x else y).parms = if c then x.parms else y.parms := by
  split <;> rfl

set_option maxRecDepth 4000 in
/-- Once the header file has been read, the parms component of the
readSuperBlock1 result is the parms produced by the line loop, on every
path. -/
theorem readSuperBlock1_parms (env : REnv) (sb : SuperBlock)
    (pszKey : List Nat) (parms : CryptedVolumeParms)
    (ciphers : List Cipher) (lines : List (List Char))
    (hPath : env.path1Fits = true) (hHdr : env.header1 = some lines) :
    (readSuperBlock1 env sb pszKey parms ciphers).2.2 =
      (processLines (initHdrState parms) lines).parms := by
  unfold readSuperBlock1
  rw [hPath, hHdr]
  cases hf : findCipher ciphers
      (processLines (initHdrState parms) lines).szCipher with
  | none => simp [hf, ite_fst, ite_snd, ite_self]
  | some c => simp [hf, coreHashKey, ite_fst, ite_snd, ite_self]

set_option maxRecDepth 4000 in
theorem coreReadSuperBlock_parms (env : REnv) (sbMagic sbCurVer : Nat)
    (basePath : List Char) (pszKey : List Nat) (ciphers : List Cipher)
    (parms : CryptedVolumeParms) (lines : List (List Char))
    (hAlloc : env.allocOk = true)
    (hPath : env.path1Fits = true)
    (hHdr : env.header1 = some lines) :
    (coreReadSuperBlock env sbMagic sbCurVer basePath pszKey ciphers
        parms).parms = (processLines (initHdrState parms) lines).parms := by
  have h1 := readSuperBlock1_parms env
    { env.uninit with pszBasePath := basePath } pszKey parms ciphers lines
    hPath hHdr
  unfold coreReadSuperBlock
  simp [hAlloc, ite_rr_parms, ite_fst, ite_snd, ite_self, h1]

/-- Claim C10: coreReadSuperBlock mutates the caller's parms in place:
once the header has been read, the parms the caller sees afterwards are
exactly the parms produced by the line loop — a use-cbc line having set
or cleared the CBC bit — whatever the subsequent outcome, including
every failing path that returns no SuperBlock; and a use-cbc line sets
the bit exactly when its value is the string 1 and clears it
otherwise. -/
theorem read_mutates_parms_in_place (env : REnv) (sbMagic sbCurVer : Nat)
    (basePath : List Char) (pszKey : List Nat) (ciphers : List Cipher)
    (parms : CryptedVolumeParms) (lines : List (List Char))
    (hAlloc : env.allocOk = true)
    (hPath : env.path1Fits = true)
    (hHdr : env.header1 = some lines) :
    (coreReadSuperBlock env sbMagic sbCurVer basePath pszKey ciphers
        parms).parms = (processLines (initHdrState parms) lines).parms ∧
    (∀ (st : HdrState) (l : List Char) (v : List Char),
      parseLine l = some (cbcKW, v) →
      ((v = ['1'] →
        (processLine st l).parms.flCryptoFlags =
          st.parms.flCryptoFlags ||| CCRYPT_USE_CBC) ∧
      (v ≠ ['1'] →
        (processLine st l).parms.flCryptoFlags =
          st.parms.flCryptoFlags &&& NOT_CCRYPT_USE_CBC))) := by
  refine ⟨coreReadSuperBlock_parms env sbMagic sbCurVer basePath pszKey
    ciphers parms lines hAlloc hPath hHdr, ?_⟩
  intro st l v hpl
  have hkw : (cbcKW = cipherKW) = False := by decide
  constructor
  · intro hv
    simp [processLine, hpl, hkw, hv]
  · intro hv
    simp [processLine, hpl, hkw, hv]

/-- Environment of an open where the record file reads fine but the
decryption reports an error while still producing bytes. -/
def env4 : REnv :=
  { env1 with
    record2 := some (List.replicate SECTOR_SIZE 5)
    decrypt := fun _ _ => (.CORERC_STORAGE, List.range 40) }

theorem read_mutates_parms_in_place_witness :
    env1.allocOk = true ∧ env1.path1Fits = true ∧
    env1.header1 = some [hdrCipherLine] ∧
    ((coreReadSuperBlock env1 7 2 ['v'] [] regs1 parms0).parms =
        (processLines (initHdrState parms0) [hdrCipherLine]).parms) :=
  ⟨rfl, rfl, rfl,
    (read_mutates_parms_in_place env1 7 2 ['v'] [] regs1 parms0
      [hdrCipherLine] rfl rfl rfl).1⟩

/-! ### Claim C9: readSuperBlock2 on the decryption-error path -/

theorem padTo_length (n : Nat) (l : List Nat) : (padTo n l).length = n := by
  simp only [padTo, List.length_append, List.length_take,
    List.length_replicate]
  omega

theorem fixBuf_length (n : Nat) (src : List Nat) :
    (fixBuf n src).length = n := by
  simp [fixBuf, List.length_set, padTo_length]

theorem fixBuf_last (n : Nat) (hn : 0 < n) (src : List Nat) :
    (fixBuf n src).getD (n - 1) 0 = 0 := by
  have h : n - 1 < (padTo n src).length := by rw [padTo_length]; omega
  rw [fixBuf, List.getD_eq_getElem?_getD, List.getElem?_set_self h]
  rfl

/-- Claim C9: when the record file is opened, a full sector is read and
decryption reports an error, readSuperBlock2 nonetheless populates the
magic, version, flags, rootId, label and description fields from the
decrypted bytes — both string buffers forced null-terminated within
their fixed bounds — and only then returns the decryption error; the
fields are not left in their prior state. -/
theorem record_decrypt_error_still_populates (env : REnv)
    (sb : SuperBlock) (parms : CryptedVolumeParms) (s : List Nat)
    (cr : CoreResult) (payload : List Nat)
    (hPath : env.path2Fits = true)
    (hRec : env.record2 = some s)
    (hClose : env.close2Ok = true)
    (hDec : env.decrypt s parms.flCryptoFlags = (cr, payload))
    (hErr : cr ≠ .CORERC_OK) :
    readSuperBlock2 env sb parms =
      (cr,
        { sb with
          magic := bytesToInt32 (payload.take 4)
          version := bytesToInt32 ((payload.drop 4).take 4)
          flFlags := bytesToInt32 ((payload.drop 8).take 4)
          idRoot := bytesToInt32 ((payload.drop 12).take 4)
          szLabel := fixBuf SZLABEL_SIZE (payload.drop 16)
          szDescription :=
            fixBuf SZDESCR_SIZE (payload.drop (16 + SZLABEL_SIZE)) }) ∧
    (readSuperBlock2 env sb parms).2.szLabel.length = SZLABEL_SIZE ∧
    (readSuperBlock2 env sb parms).2.szLabel.getD (SZLABEL_SIZE - 1) 0
      = 0 ∧
    (readSuperBlock2 env sb parms).2.szDescription.length
      = SZDESCR_SIZE ∧
    (readSuperBlock2 env sb parms).2.szDescription.getD
      (SZDESCR_SIZE - 1) 0 = 0 := by
  have h0 : readSuperBlock2 env sb parms =
      (cr,
        { sb with
          magic := bytesToInt32 (payload.take 4)
          version := bytesToInt32 ((payload.drop 4).take 4)
          flFlags := bytesToInt32 ((payload.drop 8).take 4)
          idRoot := bytesToInt32 ((payload.drop 12).take 4)
          szLabel := fixBuf SZLABEL_SIZE (payload.drop 16)
          szDescription :=
            fixBuf SZDESCR_SIZE (payload.drop (16 + SZLABEL_SIZE)) }) := by
    unfold readSuperBlock2
    simp [hPath, hRec, hClose, hDec]
  refine ⟨h0, ?_, ?_, ?_, ?_⟩ <;> rw [h0]
  · exact fixBuf_length _ _
  · exact fixBuf_last _ (by decide) _
  · exact fixBuf_length _ _
  · exact fixBuf_last _ (by decide) _

theorem record_decrypt_error_still_populates_witness :
    env4.path2Fits = true ∧
    env4.record2 = some (List.replicate SECTOR_SIZE 5) ∧
    env4.close2Ok = true ∧
    env4.decrypt (List.replicate SECTOR_SIZE 5) parms0.flCryptoFlags =
      (.CORERC_STORAGE, List.range 40) ∧
    (readSuperBlock2 env4 sb00 parms0).1 = .CORERC_STORAGE ∧
    (readSuperBlock2 env4 sb00 parms0).2.magic =
      bytesToInt32 ((List.range 40).take 4) ∧
    (readSuperBlock2 env4 sb00 parms0).2.szLabel.getD
      (SZLABEL_SIZE - 1) 0 = 0 := by
  have h := record_decrypt_error_still_populates env4 sb00 parms0
    (List.replicate SECTOR_SIZE 5) .CORERC_STORAGE (List.range 40)
    rfl rfl rfl rfl (by decide)
  exact ⟨rfl, rfl, rfl, rfl, by rw [h.1], by rw [h.1], h.2.2.1⟩

/-! ### Byte-level lemmas about writeAt and the serialized payload -/

theorem writeAt_length_ge (buf src : List Nat) (ofs : Nat) :
    buf.length ≤ (writeAt buf ofs src).length := by
  simp only [writeAt, List.length_append, List.length_take,
    List.length_drop]
  omega

theorem getD_writeAt_lt (buf src : List Nat) (ofs i : Nat) (hi : i < ofs)
    (hb : ofs ≤ buf.length) :
    (writeAt buf ofs src).getD i 0 = buf.getD i 0 := by
  have hl : (List.take ofs buf).length = ofs := by
    simp [List.length_take]
    omega
  have hc1 : i < (List.take ofs buf ++ src).length := by
    simp only [List.length_append, hl]
    omega
  simp only [writeAt, List.getD_eq_getElem?_getD]
  rw [List.getElem?_append, if_pos hc1, List.getElem?_append, hl,
    if_pos hi, List.getElem?_take, if_pos hi]

theorem getD_writeAt_in (buf src : List Nat) (ofs i : Nat)
    (hi : i < src.length) (hb : ofs ≤ buf.length) :
    (writeAt buf ofs src).getD (ofs + i) 0 = src.getD i 0 := by
  have hl : (List.take ofs buf).length = ofs := by
    simp [List.length_take]
    omega
  have hc1 : ofs + i < (List.take ofs buf ++ src).length := by
    simp only [List.length_append, hl]
    omega
  have h2 : ofs + i - ofs = i := by omega
  simp only [writeAt, List.getD_eq_getElem?_getD]
  rw [List.getElem?_append, if_pos hc1, List.getElem?_append, hl,
    if_neg (by omega), h2]

theorem drop_writeAt_ge (buf src : List Nat) (ofs k : Nat)
    (hk : ofs + src.length ≤ k) (hb : ofs ≤ buf.length) :
    (writeAt buf ofs src).drop k = buf.drop k := by
  have hl : (List.take ofs buf).length = ofs := by
    simp [List.length_take]
    omega
  have h1 : List.drop k (List.take ofs buf) = [] :=
    List.drop_eq_nil_of_le (by rw [hl]; omega)
  have h2 : List.drop (k - ofs) src = [] :=
    List.drop_eq_nil_of_le (by omega)
  simp only [writeAt]
  rw [List.drop_append_eq_append_drop, List.drop_append_eq_append_drop,
    List.length_append, hl, h1, h2, List.nil_append, List.nil_append,
    List.drop_drop]
  congr 1
  omega

theorem int32ToBytes_length (n : Nat) : (int32ToBytes n).length = 4 := rfl

theorem bytesToInt32_int32ToBytes (n : Nat) (h : n < 4294967296) :
    bytesToInt32 (int32ToBytes n) = n := by
  simp [bytesToInt32, int32ToBytes]
  omega

set_option maxRecDepth 8000 in
/-- The first four stores of buildPayload on the zeroed payload, in
closed form. -/
theorem p4_closed (m v f r : Nat) :
    writeAt (writeAt (writeAt (writeAt (List.replicate PAYLOAD_SIZE 0) 0
        (int32ToBytes m)) 4 (int32ToBytes v)) 8 (int32ToBytes f)) 12
        (int32ToBytes r) =
      int32ToBytes m ++ int32ToBytes v ++ int32ToBytes f ++
        int32ToBytes r ++ List.replicate 492 0 := by
  simp [writeAt, int32ToBytes, PAYLOAD_SIZE, SECTOR_SIZE, RANDOM_SIZE,
    List.drop_replicate]

/-- buildPayload split into its fixed 16-byte integer prefix and the two
strcpy stores. -/
theorem buildPayload_split (m v : Nat) (sb : SuperBlock) :
    buildPayload m v sb =
      writeAt (writeAt (int32ToBytes m ++ int32ToBytes v ++
        int32ToBytes sb.flFlags ++ int32ToBytes sb.idRoot ++
        List.replicate 492 0) 16 (cstr sb.szLabel))
        (16 + SZLABEL_SIZE) (cstr sb.szDescription) := by
  simp only [buildPayload]
  rw [p4_closed]

set_option maxRecDepth 8000 in
theorem buildPayload_decode (m v : Nat) (sb : SuperBlock)
    (hm : m < 4294967296) (hv : v < 4294967296) :
    bytesToInt32 (buildPayload m v sb) = m ∧
    bytesToInt32 ((buildPayload m v sb).drop 4) = v := by
  have hlen4 : (int32ToBytes m ++ int32ToBytes v ++
      int32ToBytes sb.flFlags ++ int32ToBytes sb.idRoot ++
      List.replicate 492 0).length = 508 := by
    simp [int32ToBytes]
  have hlen5 : (508 : Nat) ≤
      (writeAt (int32ToBytes m ++ int32ToBytes v ++
        int32ToBytes sb.flFlags ++ int32ToBytes sb.idRoot ++
        List.replicate 492 0) 16 (cstr sb.szLabel)).length := by
    have := writeAt_length_ge (int32ToBytes m ++ int32ToBytes v ++
      int32ToBytes sb.flFlags ++ int32ToBytes sb.idRoot ++
      List.replicate 492 0) (cstr sb.szLabel) 16
    omega
  have hi : ∀ i : Nat, i < 16 →
      (buildPayload m v sb).getD i 0 =
      (int32ToBytes m ++ int32ToBytes v ++ int32ToBytes sb.flFlags ++
        int32ToBytes sb.idRoot ++ List.replicate 492 0).getD i 0 := by
    intro i h
    rw [buildPayload_split]
    rw [getD_writeAt_lt _ _ _ _ (by simp only [SZLABEL_SIZE]; omega)
      (by simp only [SZLABEL_SIZE]; omega)]
    rw [getD_writeAt_lt _ _ _ _ (by omega) (by omega)]
  have hd : ∀ i d : Nat, ((buildPayload m v sb).drop 4).getD i d =
      (buildPayload m v sb).getD (4 + i) d := by
    intro i d
    simp [List.getD_eq_getElem?_getD, List.getElem?_drop]
  constructor
  · show bytesToInt32 (buildPayload m v sb) = m
    unfold bytesToInt32
    rw [hi 0 (by omega), hi 1 (by omega), hi 2 (by omega),
      hi 3 (by omega)]
    simp [int32ToBytes]
    omega
  · unfold bytesToInt32
    rw [hd, hd, hd, hd]
    rw [hi (4 + 0) (by omega), hi (4 + 1) (by omega), hi (4 + 2)
      (by omega), hi (4 + 3) (by omega)]
    simp [int32ToBytes]
    omega

set_option maxRecDepth 8000 in
/-- The payload bytes past the description field are the zeros of the
initial memset: nothing after the two strings is ever overwritten. -/
theorem buildPayload_padding (m v : Nat) (sb : SuperBlock)
    (hL : (cstr sb.szLabel).length ≤ SZLABEL_SIZE)
    (hD : (cstr sb.szDescription).length ≤ SZDESCR_SIZE) :
    (buildPayload m v sb).drop (16 + SZLABEL_SIZE + SZDESCR_SIZE) =
      List.replicate (PAYLOAD_SIZE - (16 + SZLABEL_SIZE + SZDESCR_SIZE))
        0 := by
  have hlen4 : (int32ToBytes m ++ int32ToBytes v ++
      int32ToBytes sb.flFlags ++ int32ToBytes sb.idRoot ++
      List.replicate 492 0).length = 508 := by
    simp [int32ToBytes]
  have hlen5 : (508 : Nat) ≤
      (writeAt (int32ToBytes m ++ int32ToBytes v ++
        int32ToBytes sb.flFlags ++ int32ToBytes sb.idRoot ++
        List.replicate 492 0) 16 (cstr sb.szLabel)).length := by
    have := writeAt_length_ge (int32ToBytes m ++ int32ToBytes v ++
      int32ToBytes sb.flFlags ++ int32ToBytes sb.idRoot ++
      List.replicate 492 0) (cstr sb.szLabel) 16
    omega
  rw [buildPayload_split]
  rw [drop_writeAt_ge _ _ _ _
    (by simp only [SZLABEL_SIZE, SZDESCR_SIZE] at hD ⊢; omega)
    (by simp only [SZLABEL_SIZE]; omega)]
  rw [drop_writeAt_ge _ _ _ _
    (by simp only [SZLABEL_SIZE, SZDESCR_SIZE] at hL ⊢; omega)
    (by omega)]
  simp only [SZLABEL_SIZE, SZDESCR_SIZE, PAYLOAD_SIZE, SECTOR_SIZE,
    RANDOM_SIZE, int32ToBytes]
  simp [List.drop_replicate]

/-! ### Claims about coreWriteSuperBlock -/

/-- Claim C5: a SuperBlock bound to read-only volume parameters is
rejected by coreWriteSuperBlock with CORERC_READ_ONLY before any file
operation, whatever the option flags: the SuperBlock is untouched and
the mutation trace is empty, so both on-disk files stay unmodified. -/
theorem write_readonly_rejected (env : WEnv) (sbMagic sbCurVer : Nat)
    (sb : SuperBlock) (flags : Nat)
    (hro : env.parms.fReadOnly = true) :
    coreWriteSuperBlock env sbMagic sbCurVer sb flags =
      (.CORERC_READ_ONLY, sb, []) := by
  unfold coreWriteSuperBlock
  rw [hro]
  simp

/-- Write-path fixture: all external calls succeed, the random field
gets four nonzero bytes, encryption is an invertible stand-in. -/
def envW : WEnv :=
  { parms := parms0
    path1Fits := true
    open1Ok := true
    print1Ok := true
    print2Ok := true
    close1Ok := true
    path2Fits := true
    open2Ok := true
    random := [171, 171, 171, 171]
    encrypt := fun r p _ => r ++ p
    writeOk := true
    close2Ok := true }

/-- The same fixture bound to read-only volume parameters. -/
def envWRO : WEnv := { envW with parms := ⟨0, true⟩ }

/-- A live SuperBlock with short null-terminated label and description
strings and non-canonical magic and version fields. -/
def sbW : SuperBlock :=
  ⟨['v'], ⟨⟨['a', 'e', 's']⟩, 16, 16⟩, (), 123, 456, 3, 42,
    [76, 49, 0], [68, 49, 0]⟩

theorem write_readonly_rejected_witness :
    envWRO.parms.fReadOnly = true ∧
    coreWriteSuperBlock envWRO 77 3 sbW 5 =
      (.CORERC_READ_ONLY, sbW, []) :=
  ⟨rfl, write_readonly_rejected envWRO 77 3 sbW 5 rfl⟩

theorem getLast?_append_pair (l : List FsOp) (a b : FsOp) :
    (l ++ [a, b]).getLast? = some b := by
  rw [show l ++ [a, b] = (l ++ [a]) ++ [b] by simp, List.getLast?_concat]

/-- On a fully successful write, the returned SuperBlock is the input
with magic and version stamped to the canonical constants, and the last
file mutation is the record write of the encrypted serialized payload
built from the fresh random field. -/
theorem coreWriteSuperBlock_ok_shape (env : WEnv) (sbMagic sbCurVer : Nat)
    (sb : SuperBlock) (flags : Nat)
    (h : (coreWriteSuperBlock env sbMagic sbCurVer sb flags).1 =
      .CORERC_OK) :
    (coreWriteSuperBlock env sbMagic sbCurVer sb flags).2.1 =
      { sb with version := sbCurVer, magic := sbMagic } ∧
    (coreWriteSuperBlock env sbMagic sbCurVer sb flags).2.2.getLast? =
      some (.recWrite
        (env.encrypt env.random (buildPayload sbMagic sbCurVer sb)
          env.parms.flCryptoFlags)
        env.random (buildPayload sbMagic sbCurVer sb)) := by
  by_cases h0 : env.parms.fReadOnly = true <;>
    by_cases h1 : (if flags &&& CWS_NOWRITE_SUPERBLOCK1 = 0 then
        writeSuperBlock1Part env sb
      else ((.CORERC_OK : CoreResult), ([] : List FsOp))).1 =
        .CORERC_OK <;>
    by_cases h2 : env.path2Fits = true <;>
    by_cases h3 : env.open2Ok = true <;>
    by_cases h4 : env.writeOk = true <;>
    by_cases h5 : env.close2Ok = true <;>
    simp_all [coreWriteSuperBlock, getLast?_append_pair]

/-- On any failing write, the in-memory SuperBlock is returned
unchanged. -/
theorem coreWriteSuperBlock_err_keeps_fields (env : WEnv)
    (sbMagic sbCurVer : Nat) (sb : SuperBlock) (flags : Nat)
    (h : (coreWriteSuperBlock env sbMagic sbCurVer sb flags).1 ≠
      .CORERC_OK) :
    (coreWriteSuperBlock env sbMagic sbCurVer sb flags).2.1 = sb := by
  by_cases h0 : env.parms.fReadOnly = true <;>
    by_cases h1 : (if flags &&& CWS_NOWRITE_SUPERBLOCK1 = 0 then
        writeSuperBlock1Part env sb
      else ((.CORERC_OK : CoreResult), ([] : List FsOp))).1 =
        .CORERC_OK <;>
    by_cases h2 : env.path2Fits = true <;>
    by_cases h3 : env.open2Ok = true <;>
    by_cases h4 : env.writeOk = true <;>
    by_cases h5 : env.close2Ok = true <;>
    simp_all [coreWriteSuperBlock]

/-- Claim C7: every successful coreWriteSuperBlock call stamps the
canonical magic and version constants into the serialized on-disk
record regardless of the in-memory SuperBlock's prior magic and version
values, and only then sets the in-memory fields to those constants; any
failing write leaves the in-memory fields unchanged. -/
theorem write_stamps_canonical_magic_version (env : WEnv)
    (sbMagic sbCurVer : Nat) (sb : SuperBlock) (flags : Nat)
    (hm : sbMagic < 4294967296) (hv : sbCurVer < 4294967296) :
    ((coreWriteSuperBlock env sbMagic sbCurVer sb flags).1 =
        .CORERC_OK →
      (coreWriteSuperBlock env sbMagic sbCurVer sb flags).2.1.magic =
        sbMagic ∧
      (coreWriteSuperBlock env sbMagic sbCurVer sb flags).2.1.version =
        sbCurVer ∧
      bytesToInt32 (buildPayload sbMagic sbCurVer sb) = sbMagic ∧
      bytesToInt32 ((buildPayload sbMagic sbCurVer sb).drop 4) =
        sbCurVer ∧
      (coreWriteSuperBlock env sbMagic sbCurVer sb flags).2.2.getLast? =
        some (.recWrite
          (env.encrypt env.random (buildPayload sbMagic sbCurVer sb)
            env.parms.flCryptoFlags)
          env.random (buildPayload sbMagic sbCurVer sb))) ∧
    ((coreWriteSuperBlock env sbMagic sbCurVer sb flags).1 ≠
        .CORERC_OK →
      (coreWriteSuperBlock env sbMagic sbCurVer sb flags).2.1.magic =
        sb.magic ∧
      (coreWriteSuperBlock env sbMagic sbCurVer sb flags).2.1.version =
        sb.version) := by
  constructor
  · intro h
    obtain ⟨hs, ht⟩ :=
      coreWriteSuperBlock_ok_shape env sbMagic sbCurVer sb flags h
    exact ⟨by rw [hs], by rw [hs],
      (buildPayload_decode sbMagic sbCurVer sb hm hv).1,
      (buildPayload_decode sbMagic sbCurVer sb hm hv).2, ht⟩
  · intro h
    rw [coreWriteSuperBlock_err_keeps_fields env sbMagic sbCurVer sb
      flags h]
    exact ⟨rfl, rfl⟩

theorem write_stamps_canonical_magic_version_witness :
    (coreWriteSuperBlock envW 77 3 sbW 0).1 = .CORERC_OK ∧
    (coreWriteSuperBlock envW 77 3 sbW 0).2.1.magic = 77 ∧
    (coreWriteSuperBlock envW 77 3 sbW 0).2.1.version = 3 ∧
    bytesToInt32 (buildPayload 77 3 sbW) = 77 ∧
    bytesToInt32 ((buildPayload 77 3 sbW).drop 4) = 3 := by
  have h := write_stamps_canonical_magic_version envW 77 3 sbW 0
    (by decide) (by decide)
  have hok : (coreWriteSuperBlock envW 77 3 sbW 0).1 = .CORERC_OK := by
    decide
  exact ⟨hok, (h.1 hok).1, (h.1 hok).2.1, (h.1 hok).2.2.1,
    (h.1 hok).2.2.2.1⟩

/-- Claim C2, counterexample: a fully successful write during which the
system random generator produced nonzero bytes, yet every payload byte
past the description field of the written record is the zero byte — the
padding is a fixed constant, not cryptographically random bytes. -/
theorem write_padding_zero_counterexample :
    (coreWriteSuperBlock envW 77 3 sbW 0).1 = .CORERC_OK ∧
    envW.random = [171, 171, 171, 171] ∧
    (buildPayload 77 3 sbW).drop 400 = List.replicate 108 0 := by
  refine ⟨by decide, rfl, ?_⟩
  have h := buildPayload_padding 77 3 sbW (by decide) (by decide)
  simpa [SZLABEL_SIZE, SZDESCR_SIZE, PAYLOAD_SIZE, SECTOR_SIZE,
    RANDOM_SIZE] using h

/-- Claim C2, amended: the payload bytes beyond the magic, version,
flags, rootId, label and description fields are the zeros left by the
initial memset, for every write whose strings fit their fields; the
fresh output of the system random generator goes into the sector's
separate leading random field, which is what varies the ciphertext
across writes. -/
theorem write_pads_with_zeros_and_randomizes_random_field (env : WEnv)
    (sbMagic sbCurVer : Nat) (sb : SuperBlock) (flags : Nat)
    (hL : (cstr sb.szLabel).length ≤ SZLABEL_SIZE)
    (hD : (cstr sb.szDescription).length ≤ SZDESCR_SIZE) :
    (buildPayload sbMagic sbCurVer sb).drop
        (16 + SZLABEL_SIZE + SZDESCR_SIZE) =
      List.replicate (PAYLOAD_SIZE - (16 + SZLABEL_SIZE + SZDESCR_SIZE))
        0 ∧
    ((coreWriteSuperBlock env sbMagic sbCurVer sb flags).1 =
        .CORERC_OK →
      (coreWriteSuperBlock env sbMagic sbCurVer sb flags).2.2.getLast? =
        some (.recWrite
          (env.encrypt env.random (buildPayload sbMagic sbCurVer sb)
            env.parms.flCryptoFlags)
          env.random (buildPayload sbMagic sbCurVer sb))) := by
  refine ⟨buildPayload_padding sbMagic sbCurVer sb hL hD, ?_⟩
  intro h
  exact (coreWriteSuperBlock_ok_shape env sbMagic sbCurVer sb flags h).2

theorem write_pads_with_zeros_witness :
    (cstr sbW.szLabel).length ≤ SZLABEL_SIZE ∧
    (cstr sbW.szDescription).length ≤ SZDESCR_SIZE ∧
    (buildPayload 77 3 sbW).drop (16 + SZLABEL_SIZE + SZDESCR_SIZE) =
      List.replicate (PAYLOAD_SIZE - (16 + SZLABEL_SIZE + SZDESCR_SIZE))
        0 :=
  ⟨by decide, by decide,
    (write_pads_with_zeros_and_randomizes_random_field envW 77 3 sbW 0
      (by decide) (by decide)).1⟩

/-! ### Claim C8: header lines that do not fully match -/

/-- A header-loop state with a previously parsed cipher
configuration. -/
def stC8 : HdrState := ⟨['b', 'a', 'r'], 16, 8, parms0⟩

/-- A cipher line whose value matches the id and the key-size number
but stops before the block-size number. -/
def lineC8 : List Char := "cipher: abc-12\n".toList

/-- Claim C8, counterexample: a recognized cipher line whose value does
not fully match the id-keyBits-blockBits pattern (the scan converts only
two of the three items) is skipped without error, but does not leave the
parsed cipher configuration as it was: the partially converted cipher id
and raw key size are stored over the previous values. -/
theorem malformed_cipher_line_clobbers_config :
    parseLine lineC8 = some (cipherKW, ['a', 'b', 'c', '-', '1', '2']) ∧
    cipherScanCount ['a', 'b', 'c', '-', '1', '2'] < 3 ∧
    stC8.szCipher = ['b', 'a', 'r'] ∧ stC8.cbKey = 16 ∧
    (processLine stC8 lineC8).szCipher = ['a', 'b', 'c'] ∧
    (processLine stC8 lineC8).cbKey = 12 := by
  decide

theorem cipherScanCount_eq_zero {v : List Char}
    (h : cipherScanCount v = 0) :
    ((v.takeWhile (fun c => c != '-')).take 63).isEmpty = true := by
  by_cases he : ((v.takeWhile (fun c => c != '-')).take 63).isEmpty
  · exact he
  · exfalso
    simp only [cipherScanCount] at h
    rw [if_neg he] at h
    repeat' split at h
    all_goals omega

theorem cipherScan_partial (st : HdrState) (v : List Char)
    (h : cipherScanCount v < 3) :
    (cipherScan st v).cbBlock = st.cbBlock ∧
    (cipherScan st v).parms = st.parms := by
  simp only [cipherScan]
  split
  · exact ⟨rfl, rfl⟩
  · split
    · exact ⟨rfl, rfl⟩
    · split
      · split
        · exact ⟨rfl, rfl⟩
        · split
          · exact ⟨rfl, rfl⟩
          · split
            · split
              · exact ⟨rfl, rfl⟩
              · exfalso
                simp_all [cipherScanCount]
            · exact ⟨rfl, rfl⟩
      · exact ⟨rfl, rfl⟩

/-- Claim C8, amended: lines whose name/value pair does not parse, and
parsed lines with an unrecognized name, are silently skipped leaving the
state unchanged; a recognized cipher line never fails the read and never
touches the block size, the key size divisions or the CBC flag unless
all three items match (and when the very first conversion fails it
leaves the state unchanged) — but items converted before the first
mismatch (the cipher id, and possibly the raw key size) are stored. -/
theorem unrecognized_and_malformed_lines (st : HdrState)
    (l : List Char) :
    (parseLine l = none → processLine st l = st) ∧
    (∀ n v, parseLine l = some (n, v) → n ≠ cipherKW → n ≠ cbcKW →
      processLine st l = st) ∧
    (∀ v, parseLine l = some (cipherKW, v) → cipherScanCount v = 0 →
      processLine st l = st) ∧
    (∀ v, parseLine l = some (cipherKW, v) → cipherScanCount v < 3 →
      (processLine st l).cbBlock = st.cbBlock ∧
      (processLine st l).parms = st.parms) := by
  refine ⟨?_, ?_, ?_, ?_⟩
  · intro h
    simp [processLine, h]
  · intro n v h hn hv
    simp [processLine, h, hn, hv]
  · intro v h h0
    simp only [processLine, h]
    rw [if_pos trivial]
    simp only [cipherScan]
    rw [if_pos (cipherScanCount_eq_zero h0)]
  · intro v h hcount
    simp only [processLine, h]
    rw [if_pos trivial]
    exact cipherScan_partial st v hcount

theorem unrecognized_and_malformed_lines_witness :
    (processLine stC8 lineC8).cbBlock = stC8.cbBlock ∧
    (processLine stC8 lineC8).parms = stC8.parms :=
  (unrecognized_and_malformed_lines stC8 lineC8).2.2.2
    ['a', 'b', 'c', '-', '1', '2'] (by decide) (by decide)

end AEFS
